import Mathlib

/-!
Verification development for the cdn-apiserver content subresource engine.

The definitions below are a shallow embedding of the Go sources:
* the MIME helpers (`allowedMIMETypes`, `isValidMIMEType`) and the content
  handler (`buildContentURL`, `handlePut`, `handleGet`) from
  `pkg/registry/cdn/file` (content REST handler),
* the fragment of the Go standard library function `mime.ParseMediaType`
  (file `mime/mediatype.go`) that the handler calls, including its helpers
  `checkMediaTypeDisposition`, `consumeToken`, `consumeValue` and
  `consumeMediaParam`.

Strings are modelled as Lean `String` / `List Char`; the inputs of interest
are ASCII, where Go's `strings.ToLower` agrees with `Char.toLower` and
`unicode.IsSpace` is the predicate `isGoSpace` below.  The RFC 2231
parameter-continuation handling of `mime.ParseMediaType` (parameter names
containing a star, with percent-decoding) is not modelled: parameters are
kept as a plain association list, which coincides with Go for every
parameter name free of the star character.
-/

/-- Go `mime/grammar.go` `isTSpecial`: r is in `()<>@,;:\"/[]?=`. -/
def isTSpecial (c : Char) : Bool :=
  c = '(' || c = ')' || c = '<' || c = '>' || c = '@' || c = ',' || c = ';' ||
  c = ':' || c = '\\' || c = '"' || c = '/' || c = '[' || c = ']' || c = '?' || c = '='

/-- Go `mime/grammar.go` `isTokenChar`: any US-ASCII char except SPACE, CTLs and tspecials. -/
def isTokenChar (c : Char) : Bool :=
  0x20 < c.val && c.val < 0x7f && !isTSpecial c

/-- Go `unicode.IsSpace` restricted to the Latin-1 range (space, tab, newline,
vertical tab, form feed, carriage return, NEL, NBSP). -/
def isGoSpace (c : Char) : Bool :=
  c.val = 32 || (9 ≤ c.val && c.val ≤ 13) || c.val = 0x85 || c.val = 0xA0

/-- Go `strings.TrimSpace` (via `isGoSpace`) on a character list. -/
def trimSpaceGo (l : List Char) : List Char :=
  ((l.dropWhile isGoSpace).reverse.dropWhile isGoSpace).reverse

/-- Go `mime/grammar.go` `consumeToken`: the longest token prefix and the rest. -/
def consumeToken (v : List Char) : List Char × List Char :=
  (v.takeWhile isTokenChar, v.dropWhile isTokenChar)

/-- Go `mime/mediatype.go` `checkMediaTypeDisposition`; `Except.error` carries
Go's error message.  Note that a bare token with no slash is accepted. -/
def checkMediaTypeDisposition (s : List Char) : Except String Unit :=
  let (typ, rest) := consumeToken s
  if typ = [] then .error "mime: no media type"
  else if rest = [] then .ok ()
  else
    match rest with
    | '/' :: r1 =>
      let (subtype, rest2) := consumeToken r1
      if subtype = [] then .error "mime: expected token after slash"
      else if rest2 = [] then .ok ()
      else .error "mime: unexpected content after media subtype"
    | _ => .error "mime: expected slash after first token"

/-- The quoted-string scanning loop of Go `mime/mediatype.go` `consumeValue`
(starting after the opening quote); `none` means no closing quote or a bare
CR/LF, in which case `consumeValue` returns the original input unchanged. -/
def consumeQuoted (acc : List Char) : List Char → Option (List Char × List Char)
  | [] => none
  | '"' :: rest => some (acc.reverse, rest)
  | '\\' :: d :: rest2 =>
    if isTSpecial d then consumeQuoted (d :: acc) rest2
    else consumeQuoted ('\\' :: acc) (d :: rest2)
  | ['\\'] => none
  | c :: rest => if c = '\r' || c = '\n' then none else consumeQuoted (c :: acc) rest
termination_by l => l.length
decreasing_by all_goals simp_arith

/-- Go `mime/mediatype.go` `consumeValue`: a token, or a quoted-string with
backslash-escapes of tspecials. -/
def consumeValue (v : List Char) : List Char × List Char :=
  match v with
  | [] => ([], [])
  | c :: rest =>
    if c ≠ '"' then consumeToken v
    else
      match consumeQuoted [] rest with
      | some (value, rest2) => (value, rest2)
      | none => ([], v)

/-- Go `mime/mediatype.go` `consumeMediaParam`: returns (attribute, value, rest);
an empty attribute signals failure, in which case rest is the input unchanged. -/
def consumeMediaParam (v : List Char) : List Char × List Char × List Char :=
  let rest := v.dropWhile isGoSpace
  match rest with
  | ';' :: rest1 =>
    let rest2 := rest1.dropWhile isGoSpace
    let (param0, rest3) := consumeToken rest2
    let param := param0.map Char.toLower
    if param = [] then ([], [], v)
    else
      let rest4 := rest3.dropWhile isGoSpace
      match rest4 with
      | '=' :: rest5 =>
        let rest6 := rest5.dropWhile isGoSpace
        let (value, rest7) := consumeValue rest6
        if value = [] ∧ rest7 = rest6 then ([], [], v)
        else (param, value, rest7)
      | _ => ([], [], v)
  | _ => ([], [], v)

/-- Association-list lookup on character-list keys (Go map read `params[key]`). -/
def lookupParam (k : List Char) : List (List Char × List Char) → Option (List Char)
  | [] => none
  | p :: ps => if p.fst = k then some p.snd else lookupParam k ps

/-- The parameter loop of Go `mime.ParseMediaType`, with fuel for termination
(the loop consumes at least one character per iteration, so fuel equal to the
input length plus one never runs out). -/
def parseParams : Nat → List Char → List (List Char × List Char) →
    Except String (List (List Char × List Char))
  | 0, _, _ => .error "mime: internal fuel exhausted"
  | _ + 1, [], acc => .ok acc
  | fuel + 1, v@(_ :: _), acc =>
    let v1 := v.dropWhile isGoSpace
    if v1 = [] then .ok acc
    else
      let (key, value, rest) := consumeMediaParam v1
      if key = [] then
        if trimSpaceGo rest = [';'] then .ok acc
        else .error "mime: invalid media parameter"
      else
        match lookupParam key acc with
        | some v0 =>
          if v0 = value then parseParams fuel rest acc
          else .error "mime: duplicate parameter name"
        | none => parseParams fuel rest (acc ++ [(key, value)])

/-- Go `mime.ParseMediaType`: lowercased, space-trimmed media type before the
first semicolon, then the parameter list (see the module comment for the
modelled fragment).  `Except.error` carries Go's error message. -/
def parseMediaType (v : List Char) : Except String (List Char × List (List Char × List Char)) :=
  let base := v.takeWhile (fun c => c ≠ ';')
  let mediatype := trimSpaceGo (base.map Char.toLower)
  match checkMediaTypeDisposition mediatype with
  | .error e => .error e
  | .ok _ =>
    let rest := v.drop base.length
    match parseParams (rest.length + 1) rest [] with
    | .error e => .error e
    | .ok params => .ok (mediatype, params)

/-- Split a list around the first occurrence of `sep`, as in Go
`strings.SplitN(s, sep, 2)`; `none` when `sep` does not occur (one piece). -/
def cutAt (sep : Char) : List Char → Option (List Char × List Char)
  | [] => none
  | c :: cs =>
    if c = sep then some ([], cs)
    else
      match cutAt sep cs with
      | some (a, b) => some (c :: a, b)
      | none => none

/-- Source `allowedMIMETypes`: the valid top-level MIME type categories. -/
def allowedMIMETypes : List String :=
  ["application", "audio", "font", "image", "message", "model", "multipart", "text", "video"]

/-- Source `isValidMIMEType`: `strings.SplitN(mediaType, "/", 2)` must yield two
parts, the top-level part must be in `allowedMIMETypes`, the subtype nonempty. -/
def isValidMIMEType (mediaType : String) : Bool :=
  match cutAt '/' mediaType.data with
  | none => false
  | some (topLevel, subType) =>
    if !allowedMIMETypes.contains (String.mk topLevel) then false
    else if subType = [] then false
    else true

/-! ## Data model (pkg/apis/cdn types.go, metav1 fragments) -/

/-- Payload bytes (Go `[]byte`), each byte a `Nat` value. -/
abbrev Bytes := List Nat

/-- metav1.TypeMeta fragment. -/
structure TypeMeta where
  kind : String
  apiVersion : String
deriving DecidableEq

/-- metav1.ObjectMeta fragment: the fields the repository reads or writes,
plus representative pass-through fields for frame reasoning. -/
structure ObjectMeta where
  name : String
  namespc : String
  uid : String
  resourceVersion : String
  labels : List (String × String)
  annotations : List (String × String)
deriving DecidableEq

/-- Source `FileSpec` (pkg/apis/cdn/types.go). -/
structure FileSpec where
  url : String
  size : Int
  contentType : String
  resourceLocation : String
deriving DecidableEq

/-- Source `FileStatus` (pkg/apis/cdn/types.go). -/
structure FileStatus where
  uploaded : Bool
  error : String
deriving DecidableEq

/-- Source `File` (pkg/apis/cdn/types.go). -/
structure File where
  typeMeta : TypeMeta
  meta : ObjectMeta
  spec : FileSpec
  status : FileStatus
deriving DecidableEq

/-- metav1.StatusDetails fragment used by the handler (Name, Kind). -/
structure StatusDetails where
  name : String
  kind : String
deriving DecidableEq

/-- metav1.Status fragment used by the handler. -/
structure StatusV1 where
  status : String
  message : String
  details : StatusDetails
  code : Nat
deriving DecidableEq

/-- Source `contentEntry`: the content and its last status. -/
structure ContentEntry where
  data : Bytes
  status : StatusV1
deriving DecidableEq

/-! ## The content handler -/

/-- Modelled from the spec: constants `GroupName` / `SchemeGroupVersion.Version`
of pkg/apis/cdn/v1alpha1 (its register.go is not among the provided sources);
the values follow the content endpoint path documented for the repository,
`/apis/cdn.k8s.toms.place/v1alpha1/namespaces/{namespace}/files/{name}/content`. -/
def groupName : String := "cdn.k8s.toms.place"

/-- Modelled from the spec: the version segment of the content endpoint path. -/
def versionName : String := "v1alpha1"

/-- The inbound HTTP request, as the handler observes it: the fully read body
(`io.Copy` result, with `bodyReadError` the error case), the Content-Type
header, the Host header and whether the connection is TLS-terminated
(`req.TLS != nil`). -/
structure Request where
  body : Bytes
  bodyReadError : Option String
  contentTypeHeader : String
  host : String
  tls : Bool
deriving DecidableEq

/-- Source `contentHandler`: resource name, the namespace resolved from the
request context (`request.NamespaceValue(h.ctx)`), and the configured external
host. -/
structure ContentHandler where
  name : String
  namespc : String
  externalHost : String
deriving DecidableEq

/-- Source `contentHandler.buildContentURL`. -/
def buildContentURL (h : ContentHandler) (req : Request) : String :=
  let host := if h.externalHost = "" then req.host else h.externalHost
  let scheme := if req.tls then "https" else "http"
  let path := "/apis/" ++ groupName ++ "/" ++ versionName ++ "/namespaces/" ++
    h.namespc ++ "/files/" ++ h.name ++ "/content"
  scheme ++ "://" ++ host ++ path

/-- Result of the object-store `Get` as `handlePut` distinguishes it:
found, not-found (`apierrors.IsNotFound`), or any other error. -/
inductive GetResult where
  | found (file : File)
  | notFound
  | otherErr (msg : String)
deriving DecidableEq

/-- Behaviour of the object-store collaborator during one PUT: the `Get`
outcome and injectable `Create` / `Update` failures (`none` = success). -/
structure StoreBehavior where
  getR : GetResult
  createErr : Option String
  updateErr : Option String
deriving DecidableEq

/-- The state mutations a handler run performs, in order: the metadata
lookup, the metadata create/update submitted to the object store, and the
`contentStore.entries[h.name] = &contentEntry{...}` write. -/
inductive Effect where
  | metaGet (name : String)
  | metaCreate (f : File)
  | metaUpdate (name : String) (f : File)
  | contentWrite (name : String) (e : ContentEntry)
deriving DecidableEq

/-- The handler's observable HTTP reply: `http.Error(w, msg, code)`,
`h.responder.Error(err)`, or `h.responder.Object(code, &FileContent{Status})`. -/
inductive HttpResponse where
  | httpError (msg : String) (code : Nat)
  | responderError (msg : String)
  | responderObject (code : Nat) (st : StatusV1)
deriving DecidableEq

/-- The `metav1.Status` built by `handlePut` on success: `StatusSuccess`,
message naming the file, details with the name and kind File, code 201. -/
def mkSuccessStatus (name : String) (contentSize : Int) (contentType : String) : StatusV1 :=
  { status := "Success"
    message := "content uploaded successfully for file " ++ name ++ " (" ++
      toString contentSize ++ " bytes, " ++ contentType ++ ")"
    details := { name := name, kind := "File" }
    code := 201 }

/-- The Content-Type header value `handlePut` works with: the header, with
empty defaulting to application/octet-stream (source lines 622-626). -/
def effectiveCT (req : Request) : String :=
  if req.contentTypeHeader = "" then "application/octet-stream" else req.contentTypeHeader

/-- The normalization step of `handlePut` (source lines 641-646): the parsed
media type, with the charset parameter appended when present. -/
def normalizeFromParsed (mt : List Char) (params : List (List Char × List Char)) : String :=
  match lookupParam "charset".data params with
  | some cs => String.mk mt ++ "; charset=" ++ String.mk cs
  | none => String.mk mt

/-- Source `contentHandler.handlePut`, as a pure function of the request and
the object-store behaviour; returns the HTTP reply and the ordered list of
state mutations performed. -/
def handlePut (h : ContentHandler) (req : Request) (beh : StoreBehavior) :
    HttpResponse × List Effect :=
  match req.bodyReadError with
  | some e => (.httpError ("failed to read request body: " ++ e) 500, [])
  | none =>
    let contentBytes := req.body
    let contentSize : Int := (contentBytes.length : Int)
    match parseMediaType (effectiveCT req).data with
    | .error e => (.httpError ("invalid Content-Type: " ++ e) 400, [])
    | .ok (mt, params) =>
      let mediaType := String.mk mt
      if isValidMIMEType mediaType = false then
        (.httpError ("unsupported Content-Type: " ++ mediaType ++
          " (must be a valid MIME type like text/*, application/*, image/*, etc.)") 400, [])
      else
        let contentType := normalizeFromParsed mt params
        match beh.getR with
        | .otherErr e => (.responderError e, [.metaGet h.name])
        | .notFound =>
          let contentURL := buildContentURL h req
          let newFile : File :=
            { typeMeta := { kind := "", apiVersion := "" },
              meta := { name := h.name, namespc := "", uid := "", resourceVersion := "",
                        labels := [], annotations := [] },
              spec := { url := contentURL, size := contentSize,
                        contentType := contentType, resourceLocation := "" },
              status := { uploaded := true, error := "" } }
          match beh.createErr with
          | some e => (.httpError ("failed to create file resource: " ++ e) 500,
                       [.metaGet h.name, .metaCreate newFile])
          | none =>
            let st := mkSuccessStatus h.name contentSize contentType
            (.responderObject 201 st,
             [.metaGet h.name, .metaCreate newFile,
              .contentWrite h.name { data := contentBytes, status := st }])
        | .found file =>
          let contentURL := buildContentURL h req
          let file' : File :=
            { file with
              spec := { file.spec with
                        url := contentURL,
                        size := contentSize,
                        contentType := contentType },
              status := { uploaded := true, error := "" } }
          match beh.updateErr with
          | some e => (.httpError ("failed to update file resource: " ++ e) 500,
                       [.metaGet h.name, .metaUpdate h.name file'])
          | none =>
            let st := mkSuccessStatus h.name contentSize contentType
            (.responderObject 201 st,
             [.metaGet h.name, .metaUpdate h.name file',
              .contentWrite h.name { data := contentBytes, status := st }])

/-! ## Concrete system semantics: object store plus ContentStore -/

/-- Finite-map lookup on an association list keyed by the resource name
(Go map read). -/
def mapLookup {α : Type} (k : String) : List (String × α) → Option α
  | [] => none
  | p :: ps => if p.fst = k then some p.snd else mapLookup k ps

/-- Remove every binding of a key from an association list. -/
def mapErase {α : Type} (k : String) : List (String × α) → List (String × α)
  | [] => []
  | p :: ps => if p.fst = k then mapErase k ps else p :: mapErase k ps

/-- Finite-map write (Go map assignment): replaces any previous binding. -/
def mapInsert {α : Type} (k : String) (v : α) (m : List (String × α)) : List (String × α) :=
  (k, v) :: mapErase k m

/-- The full mutable state: the object store holding File resources
and the source `contentStore` map. -/
structure SystemState where
  objStore : List (String × File)
  contentStore : List (String × ContentEntry)

/-- The empty initial state (source: `entries: make(map[string]*contentEntry)`
and an empty registry). -/
def initialState : SystemState := { objStore := [], contentStore := [] }

/-- The object-store behaviour realised by a concrete state: `Get` is a map
lookup and create/update succeed. -/
def behaviorOf (st : SystemState) (name : String) : StoreBehavior :=
  { getR := match mapLookup name st.objStore with
            | some f => .found f
            | none => .notFound,
    createErr := none,
    updateErr := none }

/-- Apply one handler effect to the concrete state. -/
def applyEffect (st : SystemState) : Effect → SystemState
  | .metaGet _ => st
  | .metaCreate f => { st with objStore := mapInsert f.meta.name f st.objStore }
  | .metaUpdate n f => { st with objStore := mapInsert n f st.objStore }
  | .contentWrite n e => { st with contentStore := mapInsert n e st.contentStore }

/-- One PUT against the concrete state: run `handlePut` with the state's
object-store behaviour and apply its effects in order. -/
def putStep (h : ContentHandler) (req : Request) (st : SystemState) :
    HttpResponse × SystemState :=
  let (resp, effs) := handlePut h req (behaviorOf st h.name)
  (resp, effs.foldl applyEffect st)

/-- Default GET content type in `handleGet` when the resource records none. -/
def defaultContentType : String := "application/octet-stream"

/-- Go `%q` on a resource name: Kubernetes object names contain no characters
needing escapes, so quoting just wraps the name in double quotes. -/
def goQuote (s : String) : String := "\"" ++ s ++ "\""

/-- Outcome of source `contentHandler.handleGet`: a 200 reply with headers and
body, a responder error from the metadata lookup, or the content not-found
error `apierrors.NewNotFound(cdn.Resource("file"), h.name)`. -/
inductive GetOutcome where
  | ok (contentType : String) (contentLength : Nat) (contentDisposition : String)
       (code : Nat) (body : Bytes)
  | metadataGetError (name : String)
  | contentNotFound (name : String)
deriving DecidableEq

/-- Source `contentHandler.handleGet` over the concrete state. -/
def handleGet (h : ContentHandler) (st : SystemState) (headOnly : Bool) : GetOutcome :=
  match mapLookup h.name st.objStore with
  | none => .metadataGetError h.name
  | some file =>
    match mapLookup h.name st.contentStore with
    | some entry =>
      let contentType := if file.spec.contentType = "" then defaultContentType
                         else file.spec.contentType
      .ok contentType entry.data.length ("attachment; filename=" ++ goQuote h.name) 200
        (if headOnly then [] else entry.data)
    | none => .contentNotFound h.name

/-- One request against the system, for reachability reasoning. -/
inductive Op where
  | put (h : ContentHandler) (req : Request)
  | get (h : ContentHandler) (headOnly : Bool)

/-- Apply one operation to the state (GET and HEAD never mutate). -/
def runOp (st : SystemState) : Op → SystemState
  | .put h req => (putStep h req st).snd
  | .get _ _ => st

/-- Run a request sequence from a state. -/
def runOps (ops : List Op) (st : SystemState) : SystemState :=
  ops.foldl runOp st

/-- The normalized content type a PUT stores for a given effective
Content-Type header value, when the header is accepted. -/
def normalizeContentType (ct : String) : Option String :=
  match parseMediaType ct.data with
  | .error _ => none
  | .ok (mt, params) =>
    if isValidMIMEType (String.mk mt) = false then none
    else some (normalizeFromParsed mt params)

/-! ## Claim-support definitions -/

/-- Whether an effect is a metadata upsert (object-store create or update). -/
def isUpsert : Effect → Bool
  | .metaCreate _ => true
  | .metaUpdate _ _ => true
  | _ => false

/-- Whether an effect is the ContentStore write. -/
def isContentWrite : Effect → Bool
  | .contentWrite _ _ => true
  | _ => false

/-- Every ContentStore write occurs strictly before every metadata upsert in
the trace (the ordering stated by the spec overview). -/
def writesPrecedeUpserts (tr : List Effect) : Prop :=
  ∀ i j : Fin tr.length, isContentWrite (tr.get i) = true → isUpsert (tr.get j) = true →
    (i : Nat) < (j : Nat)

/-- Every metadata upsert occurs strictly before every ContentStore write in
the trace (the order the handler actually implements). -/
def upsertsPrecedeWrites (tr : List Effect) : Prop :=
  ∀ i j : Fin tr.length, isUpsert (tr.get i) = true → isContentWrite (tr.get j) = true →
    (i : Nat) < (j : Nat)

/-- Character-list prefix test (Go `strings.HasPrefix` on ASCII text). -/
def listPrefix : List Char → List Char → Bool
  | [], _ => true
  | _ :: _, [] => false
  | p :: ps, c :: cs => p = c && listPrefix ps cs

/-- A 400 reply whose message is the media-type parse failure
(`invalid Content-Type: ...`). -/
def isParseFailureResp : HttpResponse → Bool
  | .httpError msg code => listPrefix "invalid Content-Type:".data msg.data && code == 400
  | _ => false

/-- A 400 reply whose message is the allow-list rejection
(`unsupported Content-Type: ...`). -/
def isCategoryFailureResp : HttpResponse → Bool
  | .httpError msg code => listPrefix "unsupported Content-Type:".data msg.data && code == 400
  | _ => false

/-- A ContentStore entry carrying the success status descriptor built by
`handlePut`: Success, code 201, details naming the resource and the File kind. -/
def goodEntry (n : String) (e : ContentEntry) : Prop :=
  e.status.status = "Success" ∧ e.status.code = 201 ∧
  e.status.details.name = n ∧ e.status.details.kind = "File" ∧
  ∃ sz ct, e.status = mkSuccessStatus n sz ct

/-- Every entry readable from the ContentStore is a `goodEntry`. -/
def entrySuccessInv (st : SystemState) : Prop :=
  ∀ n e, mapLookup n st.contentStore = some e → goodEntry n e

/-- The File resource `handlePut` submits to Create when the metadata lookup
reports not-found (source lines 660-672). -/
def newFileFor (h : ContentHandler) (req : Request) (mt : List Char)
    (params : List (List Char × List Char)) : File :=
  { typeMeta := { kind := "", apiVersion := "" },
    meta := { name := h.name, namespc := "", uid := "", resourceVersion := "",
              labels := [], annotations := [] },
    spec := { url := buildContentURL h req, size := (req.body.length : Int),
              contentType := normalizeFromParsed mt params, resourceLocation := "" },
    status := { uploaded := true, error := "" } }

/-- The mutated File resource `handlePut` submits to Update when the metadata
lookup finds `file` (source lines 691-695). -/
def updatedFileFor (h : ContentHandler) (req : Request) (mt : List Char)
    (params : List (List Char × List Char)) (file : File) : File :=
  { file with
    spec := { file.spec with
              url := buildContentURL h req,
              size := (req.body.length : Int),
              contentType := normalizeFromParsed mt params },
    status := { uploaded := true, error := "" } }

/-- The ContentStore entry written by a successful `handlePut`
(source lines 716-721). -/
def entryFor (h : ContentHandler) (req : Request) (mt : List Char)
    (params : List (List Char × List Char)) : ContentEntry :=
  { data := req.body,
    status := mkSuccessStatus h.name (req.body.length : Int) (normalizeFromParsed mt params) }

/-- The entry the sample three-byte text/plain PUT writes under name a. -/
def sampleEntry : ContentEntry :=
  { data := [1, 2, 3], status := mkSuccessStatus "a" 3 "text/plain" }

/-- Sample handler used for concrete runs: file name a, namespace default,
no configured external host. -/
def sampleHandler : ContentHandler :=
  { name := "a", namespc := "default", externalHost := "" }

/-- Sample three-byte PUT request with the given Content-Type header. -/
def mkReq (ct : String) : Request :=
  { body := [1, 2, 3], bodyReadError := none, contentTypeHeader := ct,
    host := "example.com", tls := false }

/-- Object-store behaviour: lookup reports not-found, create and update work. -/
def behNotFound : StoreBehavior :=
  { getR := .notFound, createErr := none, updateErr := none }

/-- A sample existing File resource for update-branch runs. -/
def sampleFile : File :=
  { typeMeta := { kind := "File", apiVersion := "cdn.k8s.toms.place/v1alpha1" },
    meta := { name := "a", namespc := "default", uid := "u-1", resourceVersion := "7",
              labels := [("app", "demo")], annotations := [("note", "keep")] },
    spec := { url := "http://old/url", size := 99, contentType := "image/png",
              resourceLocation := "shelf-3" },
    status := { uploaded := false, error := "previous failure" } }

/-- Object-store behaviour: lookup finds `sampleFile`. -/
def behFound : StoreBehavior :=
  { getR := .found sampleFile, createErr := none, updateErr := none }

/-! ## Helper lemmas -/

theorem mapErase_lookup_ne {α : Type} (k n : String) (hne : k ≠ n) (m : List (String × α)) :
    mapLookup n (mapErase k m) = mapLookup n m := by
  induction m with
  | nil => rfl
  | cons p ps ih =>
    by_cases hp : p.fst = k
    · have hpn : p.fst ≠ n := by rw [hp]; exact hne
      simp [mapErase, hp, mapLookup, hpn, hne, ih]
    · simp only [mapErase, if_neg hp, mapLookup]
      rw [ih]

theorem mapLookup_insert {α : Type} (k n : String) (v : α) (m : List (String × α)) :
    mapLookup n (mapInsert k v m) = if k = n then some v else mapLookup n m := by
  by_cases h : k = n
  · simp [mapInsert, mapLookup, h]
  · simp [mapInsert, mapLookup, h, mapErase_lookup_ne k n h m]

theorem mapLookup_insert_self {α : Type} (k : String) (v : α) (m : List (String × α)) :
    mapLookup k (mapInsert k v m) = some v := by
  simp [mapLookup_insert]

/-- Exhaustive shape analysis of the mutation trace of one `handlePut` run. -/
theorem handlePut_shapes (h : ContentHandler) (req : Request) (beh : StoreBehavior) :
    (handlePut h req beh).snd = [] ∨
    (handlePut h req beh).snd = [.metaGet h.name] ∨
    (∃ f, (handlePut h req beh).snd = [.metaGet h.name, .metaCreate f]) ∨
    (∃ f e, (handlePut h req beh).snd =
      [.metaGet h.name, .metaCreate f, .contentWrite h.name e]) ∨
    (∃ f, (handlePut h req beh).snd = [.metaGet h.name, .metaUpdate h.name f]) ∨
    (∃ f e, (handlePut h req beh).snd =
      [.metaGet h.name, .metaUpdate h.name f, .contentWrite h.name e]) := by
  unfold handlePut
  rcases req.bodyReadError with _ | e
  · rcases parseMediaType (effectiveCT req).data with e | ⟨mt, params⟩
    · simp
    · by_cases hv : isValidMIMEType (String.mk mt) = false
      · simp [hv]
      · rcases beh.getR with file | _ | msg
        · rcases beh.updateErr with _ | msg2 <;> simp [hv]
        · rcases beh.createErr with _ | msg2 <;> simp [hv]
        · simp [hv]
  · simp

/-- C1 counterexample: for the concrete PUT of three bytes with Content-Type
text/plain on a name with no existing resource, the handler's mutation trace
is metadata-get, then metadata-create, then the ContentStore write, so the
claimed order (ContentStore write before metadata upsert) fails. -/
theorem handlePut_write_before_upsert_false :
    ¬ writesPrecedeUpserts (handlePut sampleHandler (mkReq "text/plain") behNotFound).snd := by
  unfold writesPrecedeUpserts
  decide

/-- C1 (amended): in every `handlePut` run the metadata upsert (create or
update) is committed strictly before the ContentStore write; the content
write only ever follows a successful upsert. -/
theorem handlePut_upsert_before_write (h : ContentHandler) (req : Request)
    (beh : StoreBehavior) : upsertsPrecedeWrites (handlePut h req beh).snd := by
  rcases handlePut_shapes h req beh with h1 | h1 | ⟨f, h1⟩ | ⟨f, e, h1⟩ | ⟨f, h1⟩ | ⟨f, e, h1⟩ <;>
    unfold upsertsPrecedeWrites <;> rw [h1] <;> intro i j hi hj <;>
    fin_cases i <;> fin_cases j <;> simp_all [isUpsert, isContentWrite]

/-- `handlePut` when the body reads, the media type parses and is allowed, and
the metadata lookup fails with a non-not-found error: the error propagates and
no branch is attempted. -/
theorem handlePut_run_otherErr (h : ContentHandler) (req : Request) (beh : StoreBehavior)
    (mt : List Char) (params : List (List Char × List Char)) (e : String)
    (hbody : req.bodyReadError = none)
    (hparse : parseMediaType (effectiveCT req).data = .ok (mt, params))
    (hvalid : isValidMIMEType (String.mk mt) = true)
    (hg : beh.getR = .otherErr e) :
    handlePut h req beh = (.responderError e, [.metaGet h.name]) := by
  unfold handlePut
  rw [hbody, hparse, hg]
  simp [hvalid]

/-- `handlePut` on the create branch with a working object store. -/
theorem handlePut_run_create (h : ContentHandler) (req : Request) (beh : StoreBehavior)
    (mt : List Char) (params : List (List Char × List Char))
    (hbody : req.bodyReadError = none)
    (hparse : parseMediaType (effectiveCT req).data = .ok (mt, params))
    (hvalid : isValidMIMEType (String.mk mt) = true)
    (hg : beh.getR = .notFound) (hc : beh.createErr = none) :
    handlePut h req beh =
      (.responderObject 201 (entryFor h req mt params).status,
       [.metaGet h.name, .metaCreate (newFileFor h req mt params),
        .contentWrite h.name (entryFor h req mt params)]) := by
  unfold handlePut
  rw [hbody, hparse, hg, hc]
  simp [hvalid, newFileFor, entryFor]

/-- `handlePut` on the create branch when the object-store Create fails. -/
theorem handlePut_run_create_err (h : ContentHandler) (req : Request) (beh : StoreBehavior)
    (mt : List Char) (params : List (List Char × List Char)) (e : String)
    (hbody : req.bodyReadError = none)
    (hparse : parseMediaType (effectiveCT req).data = .ok (mt, params))
    (hvalid : isValidMIMEType (String.mk mt) = true)
    (hg : beh.getR = .notFound) (hc : beh.createErr = some e) :
    handlePut h req beh =
      (.httpError ("failed to create file resource: " ++ e) 500,
       [.metaGet h.name, .metaCreate (newFileFor h req mt params)]) := by
  unfold handlePut
  rw [hbody, hparse, hg, hc]
  simp [hvalid, newFileFor]

/-- `handlePut` on the update branch with a working object store. -/
theorem handlePut_run_update (h : ContentHandler) (req : Request) (beh : StoreBehavior)
    (mt : List Char) (params : List (List Char × List Char)) (file : File)
    (hbody : req.bodyReadError = none)
    (hparse : parseMediaType (effectiveCT req).data = .ok (mt, params))
    (hvalid : isValidMIMEType (String.mk mt) = true)
    (hg : beh.getR = .found file) (hu : beh.updateErr = none) :
    handlePut h req beh =
      (.responderObject 201 (entryFor h req mt params).status,
       [.metaGet h.name, .metaUpdate h.name (updatedFileFor h req mt params file),
        .contentWrite h.name (entryFor h req mt params)]) := by
  unfold handlePut
  rw [hbody, hparse, hg, hu]
  simp [hvalid, updatedFileFor, entryFor]

/-- `handlePut` on the update branch when the object-store Update fails. -/
theorem handlePut_run_update_err (h : ContentHandler) (req : Request) (beh : StoreBehavior)
    (mt : List Char) (params : List (List Char × List Char)) (file : File) (e : String)
    (hbody : req.bodyReadError = none)
    (hparse : parseMediaType (effectiveCT req).data = .ok (mt, params))
    (hvalid : isValidMIMEType (String.mk mt) = true)
    (hg : beh.getR = .found file) (hu : beh.updateErr = some e) :
    handlePut h req beh =
      (.httpError ("failed to update file resource: " ++ e) 500,
       [.metaGet h.name, .metaUpdate h.name (updatedFileFor h req mt params file)]) := by
  unfold handlePut
  rw [hbody, hparse, hg, hu]
  simp [hvalid, updatedFileFor]

/-- C7: a PUT rejected as a client error (400 reply) performs no state
mutation at all: its trace is empty and applying it to any state is the
identity, so the ContentStore and the object store are untouched. -/
theorem handlePut_clientError_no_mutation (h : ContentHandler) (req : Request)
    (beh : StoreBehavior) (msg : String)
    (hresp : (handlePut h req beh).fst = .httpError msg 400) :
    (handlePut h req beh).snd = [] ∧
    ∀ st : SystemState, List.foldl applyEffect st (handlePut h req beh).snd = st := by
  have htr : (handlePut h req beh).snd = [] := by
    unfold handlePut at hresp ⊢
    rcases hbe : req.bodyReadError with _ | e
    · rw [hbe] at hresp
      rcases hp : parseMediaType (effectiveCT req).data with e | ⟨mt, params⟩
      · simp
      · rw [hp] at hresp
        by_cases hv : isValidMIMEType (String.mk mt) = false
        · simp [hv]
        · exfalso
          simp only [hv] at hresp
          rcases hg : beh.getR with file | _ | e2 <;> rw [hg] at hresp
          · rcases hu : beh.updateErr with _ | e3 <;> rw [hu] at hresp <;> simp at hresp
          · rcases hc : beh.createErr with _ | e3 <;> rw [hc] at hresp <;> simp at hresp
          · simp at hresp
    · rw [hbe] at hresp
  exact ⟨htr, fun st => by rw [htr]; rfl⟩

set_option maxRecDepth 8000 in
/-- C6 counterexample: a PUT with Content-Type bogus-no-slash is not rejected
with the parse-failure reply; Go's media-type parser accepts a bare token
without a slash, so the rejection is the allow-list (category) reply. -/
theorem put_bogus_no_slash_not_parse_error :
    isParseFailureResp (handlePut sampleHandler (mkReq "bogus-no-slash") behNotFound).fst
      = false ∧
    isCategoryFailureResp (handlePut sampleHandler (mkReq "bogus-no-slash") behNotFound).fst
      = true := by
  constructor <;> rfl

set_option maxRecDepth 8000 in
/-- C6 (amended): a PUT with Content-Type bogus-no-slash parses successfully
(a bare token is a valid Go media type) and is rejected 400 with the
unsupported-Content-Type (category/allow-list) message. -/
theorem put_bogus_no_slash_category_error :
    parseMediaType "bogus-no-slash".data = .ok ("bogus-no-slash".data, []) ∧
    (handlePut sampleHandler (mkReq "bogus-no-slash") behNotFound).fst =
      .httpError ("unsupported Content-Type: bogus-no-slash (must be a valid MIME type like text/*, application/*, image/*, etc.)") 400 := by
  constructor <;> rfl

/-- C3: a PUT whose metadata lookup reports not-found submits a Create of a
new resource named after the handler with uploaded true and size the byte
count; a lookup that finds a resource submits an Update keeping the name and
setting size, content type, uploaded and clearing the error; any other lookup
error is propagated with no create or update attempted. -/
theorem handlePut_upsert_branches (h : ContentHandler) (req : Request) (beh : StoreBehavior)
    (mt : List Char) (params : List (List Char × List Char))
    (hbody : req.bodyReadError = none)
    (hparse : parseMediaType (effectiveCT req).data = .ok (mt, params))
    (hvalid : isValidMIMEType (String.mk mt) = true) :
    (beh.getR = .notFound →
      Effect.metaCreate (newFileFor h req mt params) ∈ (handlePut h req beh).snd ∧
      (newFileFor h req mt params).meta.name = h.name ∧
      (newFileFor h req mt params).status.uploaded = true ∧
      (newFileFor h req mt params).spec.size = (req.body.length : Int)) ∧
    (∀ file, beh.getR = .found file →
      Effect.metaUpdate h.name (updatedFileFor h req mt params file) ∈ (handlePut h req beh).snd ∧
      (updatedFileFor h req mt params file).meta.name = file.meta.name ∧
      (updatedFileFor h req mt params file).spec.size = (req.body.length : Int) ∧
      (updatedFileFor h req mt params file).spec.contentType = normalizeFromParsed mt params ∧
      (updatedFileFor h req mt params file).status.uploaded = true ∧
      (updatedFileFor h req mt params file).status.error = "") ∧
    (∀ e, beh.getR = .otherErr e →
      (handlePut h req beh).fst = .responderError e ∧
      (handlePut h req beh).snd = [.metaGet h.name]) := by
  refine ⟨?_, ?_, ?_⟩
  · intro hg
    rcases hc : beh.createErr with _ | e
    · rw [handlePut_run_create h req beh mt params hbody hparse hvalid hg hc]
      exact ⟨by simp, rfl, rfl, rfl⟩
    · rw [handlePut_run_create_err h req beh mt params e hbody hparse hvalid hg hc]
      exact ⟨by simp, rfl, rfl, rfl⟩
  · intro file hg
    rcases hu : beh.updateErr with _ | e
    · rw [handlePut_run_update h req beh mt params file hbody hparse hvalid hg hu]
      exact ⟨by simp, rfl, rfl, rfl, rfl, rfl⟩
    · rw [handlePut_run_update_err h req beh mt params file e hbody hparse hvalid hg hu]
      exact ⟨by simp, rfl, rfl, rfl, rfl, rfl⟩
  · intro e hg
    rw [handlePut_run_otherErr h req beh mt params e hbody hparse hvalid hg]
    exact ⟨rfl, rfl⟩

/-- C3 witness: the not-found branch at the concrete sample PUT. -/
theorem handlePut_upsert_branches_witness :
    Effect.metaCreate (newFileFor sampleHandler (mkReq "text/plain") "text/plain".data []) ∈
      (handlePut sampleHandler (mkReq "text/plain") behNotFound).snd ∧
    (newFileFor sampleHandler (mkReq "text/plain") "text/plain".data []).meta.name =
      sampleHandler.name ∧
    (newFileFor sampleHandler (mkReq "text/plain") "text/plain".data []).status.uploaded = true ∧
    (newFileFor sampleHandler (mkReq "text/plain") "text/plain".data []).spec.size =
      ((mkReq "text/plain").body.length : Int) :=
  (handlePut_upsert_branches sampleHandler (mkReq "text/plain") behNotFound
    "text/plain".data [] rfl rfl (by decide)).1 rfl

/-- C5: every resource an accepted PUT submits to Create or Update stores
exactly the normalized content type: the parsed media type with only the
charset parameter preserved (type/subtype; charset=value when charset was
declared, bare type/subtype otherwise, all other parameters dropped); the
normalization examples of the spec hold. -/
theorem handlePut_stores_normalized_ct (h : ContentHandler) (req : Request)
    (beh : StoreBehavior) (mt : List Char) (params : List (List Char × List Char))
    (hbody : req.bodyReadError = none)
    (hparse : parseMediaType (effectiveCT req).data = .ok (mt, params))
    (hvalid : isValidMIMEType (String.mk mt) = true) :
    (∀ f, Effect.metaCreate f ∈ (handlePut h req beh).snd →
      f.spec.contentType = normalizeFromParsed mt params) ∧
    (∀ n f, Effect.metaUpdate n f ∈ (handlePut h req beh).snd →
      f.spec.contentType = normalizeFromParsed mt params) ∧
    (∀ cs, lookupParam "charset".data params = some cs →
      normalizeFromParsed mt params = String.mk mt ++ "; charset=" ++ String.mk cs) ∧
    (lookupParam "charset".data params = none →
      normalizeFromParsed mt params = String.mk mt) ∧
    normalizeContentType "text/plain; charset=utf-8" = some "text/plain; charset=utf-8" ∧
    normalizeContentType "text/plain" = some "text/plain" := by
  refine ⟨?_, ?_, ?_, ?_, rfl, rfl⟩
  · intro f hf
    rcases hg : beh.getR with file | _ | e
    · rcases hu : beh.updateErr with _ | e
      · rw [handlePut_run_update h req beh mt params file hbody hparse hvalid hg hu] at hf
        simp at hf
      · rw [handlePut_run_update_err h req beh mt params file e hbody hparse hvalid hg hu] at hf
        simp at hf
    · rcases hc : beh.createErr with _ | e
      · rw [handlePut_run_create h req beh mt params hbody hparse hvalid hg hc] at hf
        simp at hf
        rw [hf]
        rfl
      · rw [handlePut_run_create_err h req beh mt params e hbody hparse hvalid hg hc] at hf
        simp at hf
        rw [hf]
        rfl
    · rw [handlePut_run_otherErr h req beh mt params e hbody hparse hvalid hg] at hf
      simp at hf
  · intro n f hf
    rcases hg : beh.getR with file | _ | e
    · rcases hu : beh.updateErr with _ | e
      · rw [handlePut_run_update h req beh mt params file hbody hparse hvalid hg hu] at hf
        simp at hf
        rw [hf.2]
        rfl
      · rw [handlePut_run_update_err h req beh mt params file e hbody hparse hvalid hg hu] at hf
        simp at hf
        rw [hf.2]
        rfl
    · rcases hc : beh.createErr with _ | e
      · rw [handlePut_run_create h req beh mt params hbody hparse hvalid hg hc] at hf
        simp at hf
      · rw [handlePut_run_create_err h req beh mt params e hbody hparse hvalid hg hc] at hf
        simp at hf
    · rw [handlePut_run_otherErr h req beh mt params e hbody hparse hvalid hg] at hf
      simp at hf
  · intro cs hcs
    unfold normalizeFromParsed
    rw [hcs]
  · intro hnone
    unfold normalizeFromParsed
    rw [hnone]

/-- C5 witness: the normalization fact extracted at the concrete charset PUT. -/
theorem handlePut_stores_normalized_ct_witness :
    normalizeContentType "text/plain; charset=utf-8" = some "text/plain; charset=utf-8" :=
  (handlePut_stores_normalized_ct sampleHandler (mkReq "text/plain; charset=utf-8")
    behNotFound "text/plain".data [("charset".data, "utf-8".data)]
    rfl rfl (by decide)).2.2.2.2.1

/-- C8: the resource submitted by every PUT that reaches the upsert carries
spec.url equal to the built content URL, whose scheme is https exactly when
the request is TLS-terminated, host the configured external host when
nonempty and the request Host header otherwise, and the fixed path template
with the namespace resolved from the request context. -/
theorem handlePut_url_construction (h : ContentHandler) (req : Request)
    (beh : StoreBehavior) (mt : List Char) (params : List (List Char × List Char))
    (hbody : req.bodyReadError = none)
    (hparse : parseMediaType (effectiveCT req).data = .ok (mt, params))
    (hvalid : isValidMIMEType (String.mk mt) = true) :
    (∀ f, Effect.metaCreate f ∈ (handlePut h req beh).snd →
      f.spec.url = buildContentURL h req) ∧
    (∀ n f, Effect.metaUpdate n f ∈ (handlePut h req beh).snd →
      f.spec.url = buildContentURL h req) ∧
    buildContentURL h req =
      (if req.tls then "https" else "http") ++ "://" ++
        (if h.externalHost ≠ "" then h.externalHost else req.host) ++
        ("/apis/" ++ groupName ++ "/" ++ versionName ++ "/namespaces/" ++ h.namespc ++
          "/files/" ++ h.name ++ "/content") := by
  refine ⟨?_, ?_, ?_⟩
  · intro f hf
    rcases hg : beh.getR with file | _ | e
    · rcases hu : beh.updateErr with _ | e
      · rw [handlePut_run_update h req beh mt params file hbody hparse hvalid hg hu] at hf
        simp at hf
      · rw [handlePut_run_update_err h req beh mt params file e hbody hparse hvalid hg hu] at hf
        simp at hf
    · rcases hc : beh.createErr with _ | e
      · rw [handlePut_run_create h req beh mt params hbody hparse hvalid hg hc] at hf
        simp at hf
        rw [hf]
        rfl
      · rw [handlePut_run_create_err h req beh mt params e hbody hparse hvalid hg hc] at hf
        simp at hf
        rw [hf]
        rfl
    · rw [handlePut_run_otherErr h req beh mt params e hbody hparse hvalid hg] at hf
      simp at hf
  · intro n f hf
    rcases hg : beh.getR with file | _ | e
    · rcases hu : beh.updateErr with _ | e
      · rw [handlePut_run_update h req beh mt params file hbody hparse hvalid hg hu] at hf
        simp at hf
        rw [hf.2]
        rfl
      · rw [handlePut_run_update_err h req beh mt params file e hbody hparse hvalid hg hu] at hf
        simp at hf
        rw [hf.2]
        rfl
    · rcases hc : beh.createErr with _ | e
      · rw [handlePut_run_create h req beh mt params hbody hparse hvalid hg hc] at hf
        simp at hf
      · rw [handlePut_run_create_err h req beh mt params e hbody hparse hvalid hg hc] at hf
        simp at hf
    · rw [handlePut_run_otherErr h req beh mt params e hbody hparse hvalid hg] at hf
      simp at hf
  · by_cases he : h.externalHost = "" <;> simp [buildContentURL, he]

/-- C8 witness: the URL equation at the concrete sample PUT (plain http,
no external host, namespace default, name a). -/
theorem handlePut_url_construction_witness :
    buildContentURL sampleHandler (mkReq "text/plain") =
      (if (mkReq "text/plain").tls then "https" else "http") ++ "://" ++
        (if sampleHandler.externalHost ≠ "" then sampleHandler.externalHost
         else (mkReq "text/plain").host) ++
        ("/apis/" ++ groupName ++ "/" ++ versionName ++ "/namespaces/" ++
          sampleHandler.namespc ++ "/files/" ++ sampleHandler.name ++ "/content") :=
  (handlePut_url_construction sampleHandler (mkReq "text/plain") behNotFound
    "text/plain".data [] rfl rfl (by decide)).2.2

/-- C10: the update branch passes every field other than spec.url, spec.size,
spec.contentType, status.uploaded and status.error through unchanged: the
submitted resource keeps the fetched type metadata, object metadata and
spec.resourceLocation, equals the fetched file updated in exactly those five
fields, and is the only update ever submitted. -/
theorem handlePut_update_frame (h : ContentHandler) (req : Request) (beh : StoreBehavior)
    (mt : List Char) (params : List (List Char × List Char)) (file : File)
    (hbody : req.bodyReadError = none)
    (hparse : parseMediaType (effectiveCT req).data = .ok (mt, params))
    (hvalid : isValidMIMEType (String.mk mt) = true)
    (hg : beh.getR = .found file) :
    Effect.metaUpdate h.name (updatedFileFor h req mt params file) ∈ (handlePut h req beh).snd ∧
    (updatedFileFor h req mt params file).typeMeta = file.typeMeta ∧
    (updatedFileFor h req mt params file).meta = file.meta ∧
    (updatedFileFor h req mt params file).spec.resourceLocation = file.spec.resourceLocation ∧
    updatedFileFor h req mt params file =
      { file with
        spec := { file.spec with
                  url := buildContentURL h req,
                  size := (req.body.length : Int),
                  contentType := normalizeFromParsed mt params },
        status := { uploaded := true, error := "" } } ∧
    (∀ n f', Effect.metaUpdate n f' ∈ (handlePut h req beh).snd →
      n = h.name ∧ f' = updatedFileFor h req mt params file) := by
  rcases hu : beh.updateErr with _ | e
  · rw [handlePut_run_update h req beh mt params file hbody hparse hvalid hg hu]
    refine ⟨by simp, rfl, rfl, rfl, rfl, ?_⟩
    intro n f' hf'
    simp at hf'
    exact ⟨hf'.1, hf'.2⟩
  · rw [handlePut_run_update_err h req beh mt params file e hbody hparse hvalid hg hu]
    refine ⟨by simp, rfl, rfl, rfl, rfl, ?_⟩
    intro n f' hf'
    simp at hf'
    exact ⟨hf'.1, hf'.2⟩

/-- C10 witness: the frame equality at the concrete sample update PUT. -/
theorem handlePut_update_frame_witness :
    updatedFileFor sampleHandler (mkReq "text/plain") "text/plain".data [] sampleFile =
      { sampleFile with
        spec := { sampleFile.spec with
                  url := buildContentURL sampleHandler (mkReq "text/plain"),
                  size := ((mkReq "text/plain").body.length : Int),
                  contentType := normalizeFromParsed "text/plain".data [] },
        status := { uploaded := true, error := "" } } :=
  (handlePut_update_frame sampleHandler (mkReq "text/plain") behFound
    "text/plain".data [] sampleFile rfl rfl (by decide) rfl).2.2.2.2.1

/-- A nonempty mutation trace means the body was read and the declared media
type parsed and passed the allow-list validation. -/
theorem handlePut_effects_need_valid (h : ContentHandler) (req : Request) (beh : StoreBehavior)
    (hne : (handlePut h req beh).snd ≠ []) :
    req.bodyReadError = none ∧
    ∃ mt params, parseMediaType (effectiveCT req).data = .ok (mt, params) ∧
      isValidMIMEType (String.mk mt) = true := by
  unfold handlePut at hne
  rcases hbe : req.bodyReadError with _ | e2
  · rw [hbe] at hne
    rcases hp : parseMediaType (effectiveCT req).data with e2 | ⟨mt, params⟩
    · rw [hp] at hne
      simp at hne
    · rw [hp] at hne
      by_cases hv : isValidMIMEType (String.mk mt) = false
      · simp [hv] at hne
      · exact ⟨rfl, mt, params, rfl, by simpa using hv⟩
  · rw [hbe] at hne
    simp at hne

/-- Any ContentStore write in a `handlePut` trace is keyed by the handler's
name, stores the request body with the success status, is accompanied by the
201 success reply carrying that same status, and follows a metadata upsert in
the same run. -/
theorem handlePut_contentWrite_form (h : ContentHandler) (req : Request) (beh : StoreBehavior)
    (n : String) (e : ContentEntry)
    (hmem : Effect.contentWrite n e ∈ (handlePut h req beh).snd) :
    n = h.name ∧ e.data = req.body ∧
    (∃ ct, e.status = mkSuccessStatus h.name (req.body.length : Int) ct) ∧
    (handlePut h req beh).fst = .responderObject 201 e.status ∧
    (∃ f, Effect.metaCreate f ∈ (handlePut h req beh).snd ∨
      Effect.metaUpdate h.name f ∈ (handlePut h req beh).snd) := by
  have hne : (handlePut h req beh).snd ≠ [] := by
    intro h0
    rw [h0] at hmem
    simp at hmem
  obtain ⟨hbody, mt, params, hparse, hvalid⟩ := handlePut_effects_need_valid h req beh hne
  rcases hg : beh.getR with file | _ | e2
  · rcases hu : beh.updateErr with _ | e3
    · rw [handlePut_run_update h req beh mt params file hbody hparse hvalid hg hu] at hmem ⊢
      simp at hmem
      obtain ⟨hn, he⟩ := hmem
      subst hn
      subst he
      exact ⟨rfl, rfl, ⟨normalizeFromParsed mt params, rfl⟩, rfl,
        ⟨updatedFileFor h req mt params file, Or.inr (by simp)⟩⟩
    · rw [handlePut_run_update_err h req beh mt params file e3 hbody hparse hvalid hg hu] at hmem
      simp at hmem
  · rcases hc : beh.createErr with _ | e3
    · rw [handlePut_run_create h req beh mt params hbody hparse hvalid hg hc] at hmem ⊢
      simp at hmem
      obtain ⟨hn, he⟩ := hmem
      subst hn
      subst he
      exact ⟨rfl, rfl, ⟨normalizeFromParsed mt params, rfl⟩, rfl,
        ⟨newFileFor h req mt params, Or.inl (by simp)⟩⟩
    · rw [handlePut_run_create_err h req beh mt params e3 hbody hparse hvalid hg hc] at hmem
      simp at hmem
  · rw [handlePut_run_otherErr h req beh mt params e2 hbody hparse hvalid hg] at hmem
    simp at hmem

theorem goodEntry_of_mk (n : String) (e : ContentEntry) (sz : Int) (ct : String)
    (hst : e.status = mkSuccessStatus n sz ct) : goodEntry n e := by
  refine ⟨?_, ?_, ?_, ?_, sz, ct, hst⟩ <;> rw [hst] <;> rfl

/-- Every ContentStore write of `handlePut` writes a `goodEntry`. -/
theorem handlePut_write_goodEntry (h : ContentHandler) (req : Request) (beh : StoreBehavior)
    (n : String) (e : ContentEntry)
    (hmem : Effect.contentWrite n e ∈ (handlePut h req beh).snd) : goodEntry n e := by
  obtain ⟨hn, _h2, ⟨ct, hst⟩, _h4, _h5⟩ := handlePut_contentWrite_form h req beh n e hmem
  subst hn
  exact goodEntry_of_mk _ e _ ct hst

/-- Applying a list of effects whose ContentStore writes are all good entries
preserves the store invariant. -/
theorem entryInv_foldl (l : List Effect)
    (hw : ∀ n e, Effect.contentWrite n e ∈ l → goodEntry n e) :
    ∀ st : SystemState, entrySuccessInv st →
      entrySuccessInv (List.foldl applyEffect st l) := by
  induction l with
  | nil => exact fun st hinv => hinv
  | cons eff rest ih =>
    intro st hinv
    rw [List.foldl_cons]
    apply ih (fun n e hm => hw n e (List.mem_cons_of_mem _ hm))
    rcases eff with nm | f | ⟨nm, f⟩ | ⟨nm, e0⟩
    · exact hinv
    · exact hinv
    · exact hinv
    · intro n e hl
      simp only [applyEffect] at hl
      rw [mapLookup_insert] at hl
      by_cases hnm : nm = n
      · rw [if_pos hnm] at hl
        have he : e = e0 := by
          injection hl with h'
          exact h'.symm
        subst he
        subst hnm
        exact hw nm e (by simp)
      · rw [if_neg hnm] at hl
        exact hinv n e hl

/-- One operation preserves the ContentStore invariant. -/
theorem entryInv_runOp (st : SystemState) (op : Op) (hinv : entrySuccessInv st) :
    entrySuccessInv (runOp st op) := by
  rcases op with ⟨h, req⟩ | ⟨h, ho⟩
  · exact entryInv_foldl _ (fun n e hm => handlePut_write_goodEntry h req _ n e hm) st hinv
  · exact hinv

/-- Any operation sequence preserves the ContentStore invariant. -/
theorem entryInv_runOps (ops : List Op) : ∀ st : SystemState,
    entrySuccessInv st → entrySuccessInv (runOps ops st) := by
  induction ops with
  | nil => exact fun st hinv => hinv
  | cons op rest ih =>
    intro st hinv
    exact ih (runOp st op) (entryInv_runOp st op hinv)

/-- C9: in every state reachable from the empty store, every readable
ContentStore entry carries the success status descriptor (Success, code 201,
details naming the resource and the kind File); and the PUT handler, the sole
writer, only writes such an entry, together with the 201 success reply
carrying the same status and only in a run that also submitted the metadata
upsert. -/
theorem contentStore_success_invariant :
    (∀ ops : List Op, entrySuccessInv (runOps ops initialState)) ∧
    (∀ (h : ContentHandler) (req : Request) (beh : StoreBehavior) (n : String)
      (e : ContentEntry), Effect.contentWrite n e ∈ (handlePut h req beh).snd →
      goodEntry n e ∧ (handlePut h req beh).fst = .responderObject 201 e.status ∧
      ∃ f, Effect.metaCreate f ∈ (handlePut h req beh).snd ∨
        Effect.metaUpdate h.name f ∈ (handlePut h req beh).snd) := by
  constructor
  · intro ops
    apply entryInv_runOps ops initialState
    intro n e hl
    simp [initialState, mapLookup] at hl
  · intro h req beh n e hmem
    obtain ⟨hn, _h2, ⟨ct, hst⟩, h4, h5⟩ := handlePut_contentWrite_form h req beh n e hmem
    exact ⟨handlePut_write_goodEntry h req beh n e hmem, h4, h5⟩

set_option maxRecDepth 12000 in
/-- C9 witness: the concrete sample PUT writes exactly the good sample entry
together with the 201 reply. -/
theorem contentStore_success_invariant_witness :
    goodEntry "a" sampleEntry ∧
    (handlePut sampleHandler (mkReq "text/plain") behNotFound).fst =
      .responderObject 201 sampleEntry.status :=
  ⟨(contentStore_success_invariant.2 sampleHandler (mkReq "text/plain") behNotFound
      "a" sampleEntry (by decide)).1,
   (contentStore_success_invariant.2 sampleHandler (mkReq "text/plain") behNotFound
      "a" sampleEntry (by decide)).2.1⟩

theorem isValidMIMEType_mt_ne_nil (mt : List Char)
    (hvalid : isValidMIMEType (String.mk mt) = true) : mt ≠ [] := by
  intro hmt
  subst hmt
  exact absurd hvalid (by decide)

theorem append_ne_empty_left (s t : String) (hs : s.data ≠ []) : s ++ t ≠ "" := by
  intro hc
  apply hs
  have hd := congrArg String.data hc
  rw [String.data_append] at hd
  exact (List.append_eq_nil.mp hd).1

/-- The normalized content type of an allowed media type is never empty, so a
subsequent GET serves it rather than the octet-stream default. -/
theorem normalizeFromParsed_ne_empty (mt : List Char) (params : List (List Char × List Char))
    (hvalid : isValidMIMEType (String.mk mt) = true) :
    normalizeFromParsed mt params ≠ "" := by
  have hmt : mt ≠ [] := isValidMIMEType_mt_ne_nil mt hvalid
  unfold normalizeFromParsed
  rcases hcs : lookupParam "charset".data params with _ | cs
  · intro hcontra
    exact hmt (congrArg String.data hcontra)
  · apply append_ne_empty_left
    rw [String.data_append]
    intro h0
    exact hmt (List.append_eq_nil.mp h0).1

theorem putStep_eq (h : ContentHandler) (req : Request) (st : SystemState) :
    putStep h req st = ((handlePut h req (behaviorOf st h.name)).fst,
      List.foldl applyEffect st (handlePut h req (behaviorOf st h.name)).snd) := rfl

/-- C2: a PUT of a readable body with an accepted Content-Type against any
state replies 201 success, and an immediate GET on the same name returns
exactly the uploaded bytes with Content-Length the byte count and
Content-Type the normalized content type stored by the PUT. -/
theorem put_then_get (h : ContentHandler) (req : Request) (st : SystemState) (nct : String)
    (hbody : req.bodyReadError = none)
    (hnorm : normalizeContentType (effectiveCT req) = some nct) :
    (putStep h req st).fst =
      .responderObject 201 (mkSuccessStatus h.name (req.body.length : Int) nct) ∧
    handleGet h (putStep h req st).snd false =
      .ok nct req.body.length ("attachment; filename=" ++ goQuote h.name) 200 req.body := by
  have hfacts : ∃ mt params, parseMediaType (effectiveCT req).data = .ok (mt, params) ∧
      isValidMIMEType (String.mk mt) = true ∧ nct = normalizeFromParsed mt params := by
    unfold normalizeContentType at hnorm
    rcases hp : parseMediaType (effectiveCT req).data with e | ⟨mt, params⟩
    · rw [hp] at hnorm
      simp at hnorm
    · rw [hp] at hnorm
      by_cases hv : isValidMIMEType (String.mk mt) = false
      · simp [hv] at hnorm
      · simp [hv] at hnorm
        exact ⟨mt, params, rfl, by simpa using hv, hnorm.symm⟩
  obtain ⟨mt, params, hparse, hvalid, hnct⟩ := hfacts
  subst hnct
  have hcne : normalizeFromParsed mt params ≠ "" := normalizeFromParsed_ne_empty mt params hvalid
  rcases hg : mapLookup h.name st.objStore with _ | file
  · have hgr : (behaviorOf st h.name).getR = .notFound := by simp [behaviorOf, hg]
    have hrun := handlePut_run_create h req (behaviorOf st h.name) mt params
      hbody hparse hvalid hgr rfl
    constructor
    · rw [putStep_eq, hrun]
      rfl
    · rw [putStep_eq, hrun]
      simp only [List.foldl_cons, List.foldl_nil, applyEffect]
      unfold handleGet
      rw [show (newFileFor h req mt params).meta.name = h.name from rfl]
      rw [mapLookup_insert_self, mapLookup_insert_self]
      have hcne' : ¬((newFileFor h req mt params).spec.contentType = "") := hcne
      simp [hcne', newFileFor, entryFor]
      exact fun h0 => absurd h0 hcne
  · have hgr : (behaviorOf st h.name).getR = .found file := by simp [behaviorOf, hg]
    have hrun := handlePut_run_update h req (behaviorOf st h.name) mt params file
      hbody hparse hvalid hgr rfl
    constructor
    · rw [putStep_eq, hrun]
      rfl
    · rw [putStep_eq, hrun]
      simp only [List.foldl_cons, List.foldl_nil, applyEffect]
      unfold handleGet
      rw [mapLookup_insert_self, mapLookup_insert_self]
      have hcne' : ¬((updatedFileFor h req mt params file).spec.contentType = "") := hcne
      simp [hcne', updatedFileFor, entryFor]
      exact fun h0 => absurd h0 hcne

set_option maxRecDepth 12000 in
/-- C2 witness: the concrete sample PUT followed by a GET on the empty state. -/
theorem put_then_get_witness :
    (putStep sampleHandler (mkReq "text/plain") initialState).fst =
      .responderObject 201 (mkSuccessStatus sampleHandler.name
        ((mkReq "text/plain").body.length : Int) "text/plain") ∧
    handleGet sampleHandler (putStep sampleHandler (mkReq "text/plain") initialState).snd false =
      .ok "text/plain" (mkReq "text/plain").body.length
        ("attachment; filename=" ++ goQuote sampleHandler.name) 200 (mkReq "text/plain").body :=
  put_then_get sampleHandler (mkReq "text/plain") initialState "text/plain" rfl (by decide)

/-- `cutAt` splits at exactly the first occurrence of the separator. -/
theorem cutAt_eq_some_iff (sep : Char) : ∀ (l a b : List Char),
    cutAt sep l = some (a, b) ↔ l = a ++ sep :: b ∧ sep ∉ a := by
  intro l
  induction l with
  | nil =>
    intro a b
    constructor
    · intro h
      exact absurd h (by simp [cutAt])
    · rintro ⟨h, _⟩
      exact absurd h (by simp)
  | cons c cs ih =>
    intro a b
    by_cases hc : c = sep
    · subst hc
      rw [cutAt, if_pos rfl]
      constructor
      · intro h
        rw [Option.some.injEq, Prod.mk.injEq] at h
        obtain ⟨ha, hb⟩ := h
        subst ha
        subst hb
        exact ⟨rfl, by simp⟩
      · rintro ⟨hl, hmem⟩
        rcases a with _ | ⟨a0, a1⟩
        · simp at hl
          rw [hl]
        · simp at hl hmem
          exact absurd hl.1 (by simpa using hmem.1)
    · rw [cutAt, if_neg hc]
      rcases hcut : cutAt sep cs with _ | ⟨a', b'⟩
      · constructor
        · intro h
          exact absurd h (by simp)
        · rintro ⟨hl, hmem⟩
          rcases a with _ | ⟨a0, a1⟩
          · simp at hl
            exact absurd hl.1 hc
          · simp at hl hmem
            have h2 : cutAt sep cs = some (a1, b) := (ih a1 b).mpr ⟨hl.2, hmem.2⟩
            rw [hcut] at h2
            exact absurd h2 (by simp)
      · constructor
        · intro h
          rw [Option.some.injEq, Prod.mk.injEq] at h
          obtain ⟨ha, hb⟩ := h
          subst ha
          subst hb
          obtain ⟨hl', hmem'⟩ := (ih a' b').mp hcut
          refine ⟨by rw [hl']; rfl, ?_⟩
          simp only [List.mem_cons]
          rintro (h1 | h2)
          · exact hc h1.symm
          · exact hmem' h2
        · rintro ⟨hl, hmem⟩
          rcases a with _ | ⟨a0, a1⟩
          · simp at hl
            exact absurd hl.1 hc
          · simp at hl hmem
            have h2 : cutAt sep cs = some (a1, b) := (ih a1 b).mpr ⟨hl.2, hmem.2⟩
            rw [hcut, Option.some.injEq, Prod.mk.injEq] at h2
            rw [Option.some.injEq, Prod.mk.injEq]
            exact ⟨by rw [hl.1, h2.1], h2.2⟩

set_option maxRecDepth 12000 in
/-- C4: a media type passes the handler's validation exactly when it splits at
its first slash into an allow-listed top-level category and a nonempty
subtype; concretely, a PUT with application/x-custom succeeds while a PUT
with wibble/plain is rejected 400 as unsupported. -/
theorem isValidMIMEType_characterization :
    (∀ mediaType : String, isValidMIMEType mediaType = true ↔
      ∃ top sub : String, mediaType = top ++ "/" ++ sub ∧ ('/' ∉ top.data) ∧
        allowedMIMETypes.contains top = true ∧ sub ≠ "") ∧
    (handlePut sampleHandler (mkReq "application/x-custom") behNotFound).fst =
      .responderObject 201 (mkSuccessStatus "a" 3 "application/x-custom") ∧
    (handlePut sampleHandler (mkReq "wibble/plain") behNotFound).fst =
      .httpError ("unsupported Content-Type: wibble/plain (must be a valid MIME type like text/*, application/*, image/*, etc.)") 400 := by
  refine ⟨?_, by rfl, by rfl⟩
  intro mediaType
  unfold isValidMIMEType
  rcases hcut : cutAt '/' mediaType.data with _ | ⟨tl, st'⟩
  · constructor
    · intro h
      simp at h
    · rintro ⟨top, sub, hdec, hml, hmem, hsub⟩
      have hsome : cutAt '/' mediaType.data = some (top.data, sub.data) := by
        rw [cutAt_eq_some_iff]
        refine ⟨?_, hml⟩
        rw [hdec, String.data_append, String.data_append, List.append_assoc]
        rfl
      rw [hcut] at hsome
      exact absurd hsome (by simp)
  · obtain ⟨hdec, hmel⟩ := (cutAt_eq_some_iff '/' mediaType.data tl st').mp hcut
    constructor
    · intro h
      by_cases hall : allowedMIMETypes.contains (String.mk tl) = true
      · by_cases hst : st' = []
        · simp [hall, hst] at h
        · refine ⟨String.mk tl, String.mk st', ?_, hmel, hall, ?_⟩
          · apply String.ext
            rw [String.data_append, String.data_append, hdec, List.append_assoc]
            rfl
          · intro hq
            exact hst (congrArg String.data hq)
      · simp at hall h
        exact absurd h.1 hall
    · rintro ⟨top, sub, hdec2, hml2, hmem2, hsub2⟩
      have hsome : cutAt '/' mediaType.data = some (top.data, sub.data) := by
        rw [cutAt_eq_some_iff]
        refine ⟨?_, hml2⟩
        rw [hdec2, String.data_append, String.data_append, List.append_assoc]
        rfl
      rw [hcut, Option.some.injEq, Prod.mk.injEq] at hsome
      obtain ⟨h1, h2⟩ := hsome
      subst h1
      subst h2
      have hco : String.mk top.data ∈ allowedMIMETypes := by simpa using hmem2
      have hne : ¬(sub.data = []) := fun hq => hsub2 (String.ext hq)
      simp [hco, hne]

set_option maxRecDepth 12000 in
/-- C7 witness: the concrete wibble/plain PUT emits no state mutation. -/
theorem handlePut_clientError_no_mutation_witness :
    (handlePut sampleHandler (mkReq "wibble/plain") behNotFound).snd = [] :=
  (handlePut_clientError_no_mutation sampleHandler (mkReq "wibble/plain") behNotFound
    ("unsupported Content-Type: wibble/plain (must be a valid MIME type like text/*, application/*, image/*, etc.)") (by rfl)).1

/-- C1 witness: the amended ordering at the concrete sample PUT. -/
theorem handlePut_upsert_before_write_witness :
    upsertsPrecedeWrites (handlePut sampleHandler (mkReq "text/plain") behNotFound).snd :=
  handlePut_upsert_before_write sampleHandler (mkReq "text/plain") behNotFound
